import Mathlib

set_option linter.unusedVariables false

namespace Pulp

/-! Shallow embedding of the reserved-task dispatch core of
`server/pulp/server/async/tasks.py`.

The document store (mongo) is modelled as lists of records collected in a
`Db` structure; broker operations and other external calls are modelled as
an explicit list of `Effect` values.  Logging, the scheduler failure-count
bookkeeping (`utils.reset_failure_count` / `utils.increment_failure_count`),
cProfile handling and working-directory cleanup touch nothing in the four
persisted entities and are omitted from the embedding. -/

/-! Generic list helpers used to model mongo's `update_one` (update the
first matching document) and a few facts about `filter` and `find?`. -/

/-- Update the first element satisfying `p` with `f`; mongo's `update_one`. -/
def updateFirst {α : Type} (p : α → Bool) (f : α → α) : List α → List α
  | [] => []
  | x :: xs => if p x then f x :: xs else x :: updateFirst p f xs

theorem map_updateFirst {α β : Type} (p : α → Bool) (f : α → α) (g : α → β)
    (hg : ∀ a, g (f a) = g a) : ∀ l : List α, (updateFirst p f l).map g = l.map g := by
  intro l
  induction l with
  | nil => rfl
  | cons x xs ih => cases hp : p x <;> simp [updateFirst, hp, hg, ih]

theorem find?_of_filter_singleton {α : Type} (p : α → Bool) :
    ∀ (l : List α) (a : α), l.filter p = [a] → l.find? p = some a := by
  intro l
  induction l with
  | nil => intro a h; simp [List.filter] at h
  | cons x xs ih =>
    intro a h
    cases hp : p x with
    | true =>
      rw [show List.filter p (x :: xs) = x :: List.filter p xs from by
            simp [List.filter_cons, hp]] at h
      injection h with h1 h2
      subst h1
      simp [List.find?_cons, hp]
    | false =>
      rw [show List.filter p (x :: xs) = List.filter p xs from by
            simp [List.filter_cons, hp]] at h
      simp [List.find?_cons, hp, ih a h]

theorem filter_updateFirst_singleton {α : Type} (p : α → Bool) (f : α → α)
    (hpf : ∀ a, p (f a) = p a) :
    ∀ (l : List α) (a : α), l.filter p = [a] →
      (updateFirst p f l).filter p = [f a] := by
  intro l
  induction l with
  | nil => intro a h; simp [List.filter] at h
  | cons x xs ih =>
    intro a h
    cases hp : p x with
    | true =>
      rw [show List.filter p (x :: xs) = x :: List.filter p xs from by
            simp [List.filter_cons, hp]] at h
      injection h with h1 h2
      subst h1
      simp [updateFirst, hp, List.filter_cons, hpf, h2]
    | false =>
      rw [show List.filter p (x :: xs) = List.filter p xs from by
            simp [List.filter_cons, hp]] at h
      simp [updateFirst, hp, List.filter_cons, ih a h]

theorem filter_and_eq {α : Type} (p q : α → Bool) :
    ∀ l : List α, l.filter (fun a => p a && q a) = (l.filter p).filter q := by
  intro l
  induction l with
  | nil => rfl
  | cons x xs ih => cases hp : p x <;> cases hq : q x <;> simp [hp, hq, ih]

/-! The data model: the four persisted entities of the dispatch core
(`pulp.server.db.model`) plus the two singleton lock collections, gathered
in one store value `Db`. -/

/-- Task lifecycle states; string constants of `pulp.common.constants`. -/
inductive TaskState : Type
  | waiting
  | accepted
  | running
  | suspended
  | finished
  | error
  | canceled
  | timed_out
  | skipped
deriving DecidableEq, Repr

/-- Modelled from the spec: the terminal set
\x7bfinished, error, canceled, timed_out, skipped\x7d (the value of
`constants.CALL_COMPLETE_STATES`, whose defining module is not part of the
excerpt). -/
def CALL_COMPLETE_STATES : List TaskState :=
  [TaskState.skipped, TaskState.finished, TaskState.error,
   TaskState.canceled, TaskState.timed_out]

/-- Modelled from the spec: the incomplete set is the complement of the
terminal set (the value of `constants.CALL_INCOMPLETE_STATES`, whose
defining module is not part of the excerpt). -/
def CALL_INCOMPLETE_STATES : List TaskState :=
  [TaskState.waiting, TaskState.accepted, TaskState.running, TaskState.suspended]

/-- Modelled from the spec: the reserved scheduler worker-name value
(`pulp.common.constants.SCHEDULER_WORKER_NAME`). -/
def SCHEDULER_WORKER_NAME : String := "scheduler"

/-- Modelled from the spec: the reserved resource-manager worker-name value
(`pulp.common.constants.RESOURCE_MANAGER_WORKER_NAME`). -/
def RESOURCE_MANAGER_WORKER_NAME : String := "resource_manager"

/-- Modelled from the spec: the name of the resource-manager queue
(`pulp.server.async.celery_instance.RESOURCE_MANAGER_QUEUE`); per spec
section 6 it is the same string as the resource-manager worker name. -/
def RESOURCE_MANAGER_QUEUE : String := "resource_manager"

/-- Modelled from the spec: the dedicated exchange used to route messages
by worker name (`pulp.server.async.celery_instance.DEDICATED_QUEUE_EXCHANGE`);
its value is opaque to the dispatch logic. -/
def DEDICATED_QUEUE_EXCHANGE : String := "C.dq"

/-- A row of the worker registry (`pulp.server.db.model.Worker`); only the
name takes part in the dispatch logic. -/
structure Worker : Type where
  name : String
deriving DecidableEq, Repr

/-- A row of the reservation ledger (`pulp.server.db.model.ReservedResource`). -/
structure ReservedResource : Type where
  task_id : String
  worker_name : String
  resource_id : String
deriving DecidableEq, Repr

/-- Exceptions recorded on a task status.  `pulpCoded` stands for
`PulpCodedException` (a subclass of `PulpException`) carrying an error code,
`pulp` for a plain `PulpException` carrying a message, and `other` for any
non-Pulp exception. -/
inductive Exc : Type
  | pulpCoded (code : String)
  | pulp (msg : String)
  | other (msg : String)
deriving DecidableEq, Repr

/-- Python: `if not isinstance(exc, PulpException): exc = PulpException(str(exc))`
followed by `exc.to_dict()`; the stored error value. -/
def exc_to_stored : Exc → Exc
  | Exc.other msg => Exc.pulp msg
  | e => e

/-- A row of the task-status store (`pulp.server.db.model.TaskStatus`). -/
structure TaskStatus : Type where
  task_id : String
  task_type : String := ""
  state : TaskState
  worker_name : Option String := none
  tags : List String := []
  group_id : Option String := none
  start_time : Option String := none
  finish_time : Option String := none
  result : Option String := none
  error : Option Exc := none
  traceback : Option String := none
  spawned_tasks : List String := []
deriving DecidableEq, Repr

/-- The document store: the four persisted entities plus the two singleton
lock collections (`ResourceManagerLock`, `CeleryBeatLock`), each a list of
rows. -/
structure Db : Type where
  workers : List Worker := []
  reservations : List ReservedResource := []
  task_statuses : List TaskStatus := []
  resource_manager_locks : List String := []
  celery_beat_locks : List String := []
deriving DecidableEq, Repr

/-- External calls made by the dispatch core: broker enqueues
(`apply_async` with a routing key and exchange), broker revokes
(`controller.revoke(task_id, terminate=True)`) and agent-side cancellation
(`agent_manager.cancel_request`). -/
inductive Effect : Type
  | enqueue (task_name : String) (routing_key : String) (exchange : String) (task_id : String)
  | revoke (task_id : String)
  | agent_cancel (consumer_id : Option String) (task_id : String)
deriving DecidableEq, Repr

/-- Python's `str.startswith`, written over the character lists so that the
kernel can evaluate it on concrete inputs. -/
def startswith (s p : String) : Bool :=
  List.isPrefixOf p.data s.data

/-! Worker selection (`tasks.py` lines 210-310). -/

/-- `_is_worker`: strip out workers that should never be assigned work,
matched by `startswith` since the host suffix of a name is variable. -/
def _is_worker (worker_name : String) : Bool :=
  if startswith worker_name SCHEDULER_WORKER_NAME
     || startswith worker_name RESOURCE_MANAGER_QUEUE then
    false
  else
    true

/-- `get_worker_for_reservation`: if some `ReservedResource` row carries the
requested `resource_id`, return the registry row named by its `worker_name`
(mongo `first()`, hence `Option Worker`: `none` models Python's `None` when
no `Worker` document has that name); otherwise raise `NoWorkers`
(`Except.error`). -/
def get_worker_for_reservation (db : Db) (resource_id : String) :
    Except Unit (Option Worker) :=
  match db.reservations.find? (fun r => r.resource_id == resource_id) with
  | some reservation =>
      Except.ok (db.workers.find? (fun w => w.name == reservation.worker_name))
  | none => Except.error ()

/-- `_get_unreserved_worker`: among online workers that pass `_is_worker`
and whose names carry no reservation, pick one (Python pops an arbitrary
element of the set; the model picks the first); raise `NoWorkers` when the
set is empty (Python's `KeyError` on `set.pop`). -/
def _get_unreserved_worker (db : Db) : Except Unit Worker :=
  match ((db.workers.map (fun w => w.name)).filter _is_worker).filter
      (fun n => !((db.reservations.map (fun r => r.worker_name)).contains n)) with
  | [] => Except.error ()
  | n :: _ =>
    match db.workers.find? (fun w => w.name == n) with
    | some w => Except.ok w
    | none => Except.error ()

/-- The set `S` of `get_worker_for_reservation_list`: the distinct
`worker_name`s of reservations whose `resource_id` is among `resources`. -/
def reservation_workers (db : Db) (resources : List String) : List String :=
  ((db.reservations.filter (fun r => resources.contains r.resource_id)).map
    (fun r => r.worker_name)).dedup

/-- Outcome of one iteration of `get_worker_for_reservation_list`'s
`while True` loop. -/
inductive ListPlacementOutcome : Type
  | found (w : Worker)
  /-- exactly one worker name holds a requested resource but no `Worker`
  document has that name: Python returns `None`. -/
  | foundNone
  /-- the iteration falls through to `time.sleep(0.25)` and retries. -/
  | wouldSleep
deriving DecidableEq, Repr

/-- One iteration of `get_worker_for_reservation_list`: if exactly one
worker holds any of the desired resources return it; if no worker holds
any, try `_get_unreserved_worker` (sleep on `NoWorkers`); with two or more
holders, sleep. -/
def get_worker_for_reservation_list_step (db : Db) (resources : List String) :
    ListPlacementOutcome :=
  match reservation_workers db resources with
  | [n] =>
    match db.workers.find? (fun w => w.name == n) with
    | some w => ListPlacementOutcome.found w
    | none => ListPlacementOutcome.foundNone
  | [] =>
    match _get_unreserved_worker db with
    | Except.ok w => ListPlacementOutcome.found w
    | Except.error _ => ListPlacementOutcome.wouldSleep
  | _ => ListPlacementOutcome.wouldSleep

/-! The two reservation-request consumers (`_queue_reserved_task`,
`_queue_reserved_task_list`).  Their enqueue calls can raise, so each step
is parameterised on `inner_ok : Bool`, true when
`celery.tasks[name].apply_async(...)` for the inner job succeeds; the
`_release_resource` enqueue sits in a `finally` block and happens either
way, after which a failed inner enqueue re-raises (`raised`). -/

/-- Celery task name of the release job, as routed through
`_release_resource.apply_async`. -/
def _release_resource_task_name : String := "_release_resource"

/-- Outcome of one iteration of `_queue_reserved_task`'s `while True` loop
and of a `_queue_reserved_task_list` run. -/
inductive QueueOutcome : Type
  | placed (db : Db) (effects : List Effect) (raised : Bool)
  /-- a placement function handed back Python `None`, so dereferencing
  `worker.name` raises `TypeError`. -/
  | crashed
  /-- no worker is ready: `time.sleep(0.25)` and retry. -/
  | wouldSleep
deriving DecidableEq, Repr

/-- Tail of `_queue_reserved_task` once a worker is chosen: save the
`ReservedResource` row, enqueue the inner job on the worker's dedicated
queue, and enqueue `_release_resource` on the same queue in a `finally`. -/
def queue_dispatch_single (db : Db) (name task_id resource_id : String)
    (w : Worker) (inner_ok : Bool) : QueueOutcome :=
  QueueOutcome.placed
    { db with reservations := db.reservations ++
        [{ task_id := task_id, worker_name := w.name, resource_id := resource_id }] }
    ((if inner_ok then
        [Effect.enqueue name w.name DEDICATED_QUEUE_EXCHANGE task_id]
      else []) ++
      [Effect.enqueue _release_resource_task_name w.name DEDICATED_QUEUE_EXCHANGE task_id])
    (!inner_ok)

/-- One iteration of `_queue_reserved_task`: prefer the holder of the
requested resource (`get_worker_for_reservation`), else any unreserved
eligible worker, else sleep and retry. -/
def _queue_reserved_task_step (db : Db) (name task_id resource_id : String)
    (inner_ok : Bool) : QueueOutcome :=
  match get_worker_for_reservation db resource_id with
  | Except.ok (some w) => queue_dispatch_single db name task_id resource_id w inner_ok
  | Except.ok none => QueueOutcome.crashed
  | Except.error _ =>
    match _get_unreserved_worker db with
    | Except.ok w => queue_dispatch_single db name task_id resource_id w inner_ok
    | Except.error _ => QueueOutcome.wouldSleep

/-- Tail of `_queue_reserved_task_list` once a worker is chosen: save one
`ReservedResource` row per requested resource, then dispatch as in the
single-resource case, with the `_release_resource` enqueue in a `finally`. -/
def queue_dispatch_list (db : Db) (name task_id : String)
    (resource_id_list : List String) (w : Worker) (inner_ok : Bool) : QueueOutcome :=
  QueueOutcome.placed
    { db with reservations := db.reservations ++
        resource_id_list.map (fun rid =>
          { task_id := task_id, worker_name := w.name, resource_id := rid }) }
    ((if inner_ok then
        [Effect.enqueue name w.name DEDICATED_QUEUE_EXCHANGE task_id]
      else []) ++
      [Effect.enqueue _release_resource_task_name w.name DEDICATED_QUEUE_EXCHANGE task_id])
    (!inner_ok)

/-- `_queue_reserved_task_list` for one placement attempt of its inner
`get_worker_for_reservation_list` loop. -/
def _queue_reserved_task_list_step (db : Db) (name task_id : String)
    (resource_id_list : List String) (inner_ok : Bool) : QueueOutcome :=
  match get_worker_for_reservation_list_step db resource_id_list with
  | ListPlacementOutcome.found w =>
      queue_dispatch_list db name task_id resource_id_list w inner_ok
  | ListPlacementOutcome.foundNone => QueueOutcome.crashed
  | ListPlacementOutcome.wouldSleep => QueueOutcome.wouldSleep

/-! Cancellation (`cancel`, `tasks.py` lines 802-845). -/

/-- Modelled from the spec: resource tags have the form `type:id`, and the
agent cancellation path extracts the id of the `consumer`-typed tag
(`pulp.common.tags` is not part of the excerpt; later tags overwrite
earlier ones in the Python `dict(...)` build, hence `getLast?`). -/
def parse_consumer_id (tag_list : List String) : Option String :=
  (tag_list.filterMap (fun t =>
    if startswith t "consumer:" then some (String.mk (t.data.drop 9)) else none)).getLast?

/-- `cancel(task_id, revoke_task)`: load the `TaskStatus` (absent raises
`MissingResource`, the `Except.error`); terminal state is a logged no-op;
the `agent` worker forwards to the consumer agent manager, otherwise
`revoke_task` triggers a broker revoke; finally a conditional `update_one`
sets `canceled` on the document only while its state is not terminal. -/
def cancel (db : Db) (task_id : String) (revoke_task : Bool) :
    Except Unit (Db × List Effect) :=
  match db.task_statuses.find? (fun t => t.task_id == task_id) with
  | none => Except.error ()
  | some task_status =>
    if CALL_COMPLETE_STATES.contains task_status.state then
      Except.ok (db, [])
    else
      let effects : List Effect :=
        if task_status.worker_name == some "agent" then
          [Effect.agent_cancel (parse_consumer_id task_status.tags) task_id]
        else if revoke_task then
          [Effect.revoke task_id]
        else []
      let task_statuses' :=
        updateFirst
          (fun t => t.task_id == task_id && !(CALL_COMPLETE_STATES.contains t.state))
          (fun t => { t with state := TaskState.canceled })
          db.task_statuses
      Except.ok ({ db with task_statuses := task_statuses' }, effects)

/-! Worker-death recovery (`_delete_worker`, `tasks.py` lines 313-355). -/

/-- The cancellation loop at the end of `_delete_worker`: call
`cancel(task_id, revoke_task=False)` for each incomplete task of the dead
worker, recording the `(task_id, revoke_task)` calls made; a
`MissingResource` from `cancel` would propagate (`Except.error`). -/
def delete_worker_cancel_loop (db : Db) :
    List String → Except Unit (Db × List (String × Bool))
  | [] => Except.ok (db, [])
  | task_id :: rest =>
    match cancel db task_id false with
    | Except.error e => Except.error e
    | Except.ok (db', _) =>
      match delete_worker_cancel_loop db' rest with
      | Except.error e => Except.error e
      | Except.ok (db'', calls) => Except.ok (db'', (task_id, false) :: calls)

/-- `_delete_worker(name)`: delete the `Worker` document, delete every
`ReservedResource` of that worker, delete the matching singleton lock when
the name carries the resource-manager or scheduler pattern, then cancel
(without broker revoke) every task of that worker whose state is in
`CALL_INCOMPLETE_STATES`.  The result carries the calls made to `cancel`. -/
def _delete_worker (db : Db) (name : String) :
    Except Unit (Db × List (String × Bool)) :=
  let db4 : Db :=
    { workers := db.workers.filter (fun w => !(w.name == name)),
      reservations := db.reservations.filter (fun r => !(r.worker_name == name)),
      task_statuses := db.task_statuses,
      resource_manager_locks :=
        if startswith name RESOURCE_MANAGER_WORKER_NAME then
          db.resource_manager_locks.filter (fun n => !(n == name))
        else db.resource_manager_locks,
      celery_beat_locks :=
        if startswith name SCHEDULER_WORKER_NAME then
          db.celery_beat_locks.filter (fun n => !(n == name))
        else db.celery_beat_locks }
  delete_worker_cancel_loop db4
    ((db4.task_statuses.filter (fun t =>
        t.worker_name == some name
        && CALL_INCOMPLETE_STATES.contains t.state)).map (fun t => t.task_id))

/-! Worker lifecycle hooks (`Task.__call__`, `Task.on_failure`,
`_handle_on_failure_cleanup`) and the release job (`_release_resource`). -/

/-- `Task._handle_on_failure_cleanup`: load the `TaskStatus` by id
(`DoesNotExist` propagates as `Except.error`), set its state to `error`,
record `finish_time`, the serialized traceback and the (coerced) exception
dict, and save. -/
def _handle_on_failure_cleanup (statuses : List TaskStatus) (task_id : String)
    (exc : Exc) (einfo_traceback : Option String) (finish_time : String) :
    Except Unit (List TaskStatus) :=
  match statuses.find? (fun t => t.task_id == task_id) with
  | none => Except.error ()
  | some _ =>
    Except.ok (updateFirst (fun t => t.task_id == task_id)
      (fun t => { t with
        state := TaskState.error,
        finish_time := some finish_time,
        traceback := einfo_traceback,
        error := some (exc_to_stored exc) })
      statuses)

/-- `Task.on_failure`, acting on the task-status collection.  `request_ok`
is false when reading `self.request.called_directly` itself raises (the
workaround branch: clean up, then re-raise); otherwise cleanup runs exactly
when the task was not called directly.  The returned flag is true when the
handler lets an exception propagate. -/
def Task_on_failure (statuses : List TaskStatus) (exc : Exc) (task_id : String)
    (einfo_traceback : Option String) (finish_time : String)
    (request_ok called_directly : Bool) : List TaskStatus × Bool :=
  if !request_ok then
    match _handle_on_failure_cleanup statuses task_id exc einfo_traceback finish_time with
    | Except.ok statuses' => (statuses', true)
    | Except.error _ => (statuses, true)
  else if !called_directly then
    match _handle_on_failure_cleanup statuses task_id exc einfo_traceback finish_time with
    | Except.ok statuses' => (statuses', false)
    | Except.error _ => (statuses, true)
  else
    (statuses, false)

/-- The `for running_task in running_task_qs` loop of `_release_resource`:
one `on_failure` call, with the synthetic `PulpCodedException(PLP0049)` and
a `MyEinfo` whose traceback is `None`, per queryset row.  The flag is true
as soon as a call raises, which aborts the loop. -/
def release_loop (task_id finish_time : String) (called_directly : Bool) :
    List TaskStatus → List TaskStatus → List TaskStatus × Bool
  | statuses, [] => (statuses, false)
  | statuses, _ :: rest =>
    match Task_on_failure statuses (Exc.pulpCoded "PLP0049") task_id none
        finish_time true called_directly with
    | (statuses', true) => (statuses', true)
    | (statuses', false) => release_loop task_id finish_time called_directly statuses' rest

/-- `_release_resource(task_id)`: for every `TaskStatus` with this id still
in `running`, fail it through `on_failure` with the coded exception
`PLP0049`; then delete every `ReservedResource` row of the task (skipped
when the loop raised, since the exception propagates first).
`called_directly` is the ambient celery request flag seen by the fresh
`Task()` the function builds. -/
def _release_resource (db : Db) (task_id finish_time : String)
    (called_directly : Bool) : Db × Bool :=
  match release_loop task_id finish_time called_directly db.task_statuses
      (db.task_statuses.filter (fun t =>
        t.task_id == task_id && t.state == TaskState.running)) with
  | (statuses, true) => ({ db with task_statuses := statuses }, true)
  | (statuses, false) =>
    let reservations' := db.reservations.filter (fun r => !(r.task_id == task_id))
    ({ db with task_statuses := statuses, reservations := reservations' }, false)

/-- `Task.__call__` up to and including the decision to run the task body
(the returned flag: true when `super().__call__` — the job body — runs).
If a `TaskStatus` exists in state `canceled`, return immediately; otherwise
for non-eager execution upsert `\x7bstate: running, start_time: now,
worker_name: hostname\x7d` on the task id and run the body.  The
`NotUniqueError` retry performs the same upsert, so it is not distinguished
in the model; profiling only touches the profiler. -/
def Task_call (db : Db) (request_id : String) (called_directly : Bool)
    (hostname now : String) : Db × Bool :=
  let task_status := db.task_statuses.find? (fun t => t.task_id == request_id)
  if (match task_status with
      | some ts => ts.state == TaskState.canceled
      | none => false) then
    (db, false)
  else if called_directly then
    (db, true)
  else
    let task_statuses' :=
      if (db.task_statuses.find? (fun t => t.task_id == request_id)).isSome then
        updateFirst (fun t => t.task_id == request_id)
          (fun t => { t with
            state := TaskState.running,
            start_time := some now,
            worker_name := some hostname })
          db.task_statuses
      else
        db.task_statuses ++
          [{ task_id := request_id, state := TaskState.running,
             start_time := some now, worker_name := some hostname }]
    ({ db with task_statuses := task_statuses' }, true)

/-! `PulpTask._type_transform` (`tasks.py` lines 49-91): the value walker
applied by `PulpTask.apply_async` to its args/kwargs before dispatch and
again by `PulpTask.__call__` on receipt. -/

/-- The dynamic Python values the walker distinguishes: `ObjectId`s (by
their hex id), strings, numbers, dicts, lists and tuples. -/
inductive PValue : Type
  | oid (hex : String)
  | pstr (s : String)
  | pint (n : Int)
  | pdict (entries : List (PValue × PValue))
  | plist (items : List PValue)
  | ptuple (items : List PValue)

/-- `bson.json_util.dumps` applied to an `ObjectId`: the extended-JSON text
of the id, a `str`. -/
def bson_dumps_oid (hex : String) : String :=
  "\x7b\"$oid\": \"" ++ hex ++ "\"\x7d"

/-- Python's `'$oid' in value.keys()`: only the string key compares equal. -/
def isOidKey : PValue → Bool
  | PValue.pstr s => s == "$oid"
  | _ => false

mutual

/-- `PulpTask._type_transform(value)`.  An `ObjectId` is serialized with
`bson_dumps`; a non-empty dict carrying the key `'$oid'` is handed whole to
`bson_loads`, which only accepts strings, so the call raises `TypeError`
(modelled as `none`); other containers recurse; anything else is returned
unchanged. -/
def _type_transform : PValue → Option PValue
  | PValue.oid hex => some (PValue.pstr (bson_dumps_oid hex))
  | PValue.pdict entries =>
    if entries.isEmpty then some (PValue.pdict entries)
    else if entries.any (fun kv => isOidKey kv.1) then none
    else (tt_entries entries).map PValue.pdict
  | PValue.plist items =>
    if items.isEmpty then some (PValue.plist items)
    else (tt_values items).map PValue.plist
  | PValue.ptuple items =>
    if items.isEmpty then some (PValue.ptuple items)
    else (tt_values items).map PValue.ptuple
  | PValue.pstr s => some (PValue.pstr s)
  | PValue.pint n => some (PValue.pint n)

/-- The elementwise recursion of `_type_transform` over list/tuple items. -/
def tt_values : List PValue → Option (List PValue)
  | [] => some []
  | x :: xs => do
    let x' ← _type_transform x
    let xs' ← tt_values xs
    pure (x' :: xs')

/-- The `dict((self._type_transform(k), self._type_transform(v)) ...)`
recursion over dict entries. -/
def tt_entries : List (PValue × PValue) → Option (List (PValue × PValue))
  | [] => some []
  | (k, v) :: rest => do
    let k' ← _type_transform k
    let v' ← _type_transform v
    let rest' ← tt_entries rest
    pure ((k', v') :: rest')

end

/-! Theorems about the embedded operations. -/

/-- C1 (code bug): terminal monotonicity fails on the `on_failure` path.
`cancel` and `on_success` guard terminal states, but
`Task._handle_on_failure_cleanup` assigns `state = error` unconditionally:
for a task whose status is already `canceled`, a worker `on_failure` run
(`called_directly = false`, with a healthy request) overwrites the state to
`error`, contradicting the claim that a `canceled` state survives
`on_failure`. -/
theorem c1_on_failure_overwrites_canceled :
    Task_on_failure [{ task_id := "t1", state := TaskState.canceled }]
        (Exc.other "boom") "t1" (some "tb") "ft" true false
      = ([{ task_id := "t1", state := TaskState.error, finish_time := some "ft",
            traceback := some "tb", error := some (Exc.pulp "boom") }], false) := by
  rfl

/-- C2: holder wins.  When some `ReservedResource` row carries the requested
`resource_id` (the first such row, mongo's `first()`) and the worker it
names is registered, one iteration of `_queue_reserved_task` places the
request on exactly that worker: the inserted reservation row and the
routing keys of both the inner-job enqueue and the `_release_resource`
enqueue all name the holding worker. -/
theorem c2_holder_wins (db : Db) (name task_id resource_id : String)
    (inner_ok : Bool) (row : ReservedResource) (w : Worker)
    (h1 : db.reservations.find? (fun r => r.resource_id == resource_id) = some row)
    (h2 : db.workers.find? (fun x => x.name == row.worker_name) = some w) :
    _queue_reserved_task_step db name task_id resource_id inner_ok
      = QueueOutcome.placed
          { db with reservations := db.reservations ++
              [{ task_id := task_id, worker_name := row.worker_name,
                 resource_id := resource_id }] }
          ((if inner_ok then
              [Effect.enqueue name row.worker_name DEDICATED_QUEUE_EXCHANGE task_id]
            else []) ++
            [Effect.enqueue _release_resource_task_name row.worker_name
              DEDICATED_QUEUE_EXCHANGE task_id])
          (!inner_ok) := by
  have hw : w.name = row.worker_name := by
    simpa using List.find?_some h2
  simp only [_queue_reserved_task_step, get_worker_for_reservation, h1, h2,
    queue_dispatch_single, hw]

/-- C2 witness: with `w1` holding `repository:a` and `w2` idle, a new
request on `repository:a` is placed on `w1`. -/
theorem c2_holder_wins_witness :
    _queue_reserved_task_step
        { workers := [{ name := "w1" }, { name := "w2" }],
          reservations :=
            [{ task_id := "t0", worker_name := "w1", resource_id := "repository:a" }] }
        "job" "t1" "repository:a" true
      = QueueOutcome.placed
          { workers := [{ name := "w1" }, { name := "w2" }],
            reservations :=
              [{ task_id := "t0", worker_name := "w1", resource_id := "repository:a" },
               { task_id := "t1", worker_name := "w1", resource_id := "repository:a" }] }
          [Effect.enqueue "job" "w1" DEDICATED_QUEUE_EXCHANGE "t1",
           Effect.enqueue _release_resource_task_name "w1" DEDICATED_QUEUE_EXCHANGE "t1"]
          false :=
  c2_holder_wins _ "job" "t1" "repository:a" true
    { task_id := "t0", worker_name := "w1", resource_id := "repository:a" }
    { name := "w1" } rfl rfl

/-- When the `TaskStatus` document exists, `cancel` succeeds and touches
nothing but that document's state: workers, reservations, locks and the
multiset of task ids are unchanged. -/
theorem cancel_preserves (db : Db) (task_id : String) (revoke_task : Bool)
    (ts : TaskStatus)
    (hts : db.task_statuses.find? (fun t => t.task_id == task_id) = some ts) :
    ∃ db' effects, cancel db task_id revoke_task = Except.ok (db', effects)
      ∧ db'.workers = db.workers
      ∧ db'.reservations = db.reservations
      ∧ db'.task_statuses.map (fun t => t.task_id)
          = db.task_statuses.map (fun t => t.task_id) := by
  unfold cancel
  simp only [hts]
  split
  next hc => exact ⟨db, [], rfl, rfl, rfl, rfl⟩
  next hc =>
    refine ⟨_, _, rfl, rfl, rfl, ?_⟩
    show List.map (fun t => t.task_id)
        (updateFirst
          (fun t => t.task_id == task_id && !(CALL_COMPLETE_STATES.contains t.state))
          (fun t => { t with state := TaskState.canceled }) db.task_statuses)
      = List.map (fun t => t.task_id) db.task_statuses
    exact map_updateFirst
      (fun t => t.task_id == task_id && !(CALL_COMPLETE_STATES.contains t.state))
      (fun t => { t with state := TaskState.canceled })
      (fun t => t.task_id) (fun a => rfl) db.task_statuses

/-- The `_delete_worker` cancellation loop completes when every listed task
id has a `TaskStatus` document, records one `(task_id, false)` call per id,
and leaves workers and reservations as it found them. -/
theorem delete_worker_cancel_loop_ok (ids : List String) :
    ∀ db : Db, (∀ tid ∈ ids, ∃ t ∈ db.task_statuses, t.task_id = tid) →
    ∃ db', delete_worker_cancel_loop db ids
        = Except.ok (db', ids.map (fun tid => (tid, false)))
      ∧ db'.workers = db.workers
      ∧ db'.reservations = db.reservations := by
  induction ids with
  | nil =>
    intro db h
    exact ⟨db, rfl, rfl, rfl⟩
  | cons tid rest ih =>
    intro db h
    obtain ⟨t, ht, htid⟩ := h tid (List.mem_cons_self _ _)
    have hsome : (db.task_statuses.find? (fun t => t.task_id == tid)).isSome := by
      rw [List.find?_isSome]
      exact ⟨t, ht, by simp [htid]⟩
    obtain ⟨ts, hts⟩ := Option.isSome_iff_exists.mp hsome
    obtain ⟨db1, effs, hcancel, hw, hr, hmap⟩ := cancel_preserves db tid false ts hts
    have hrest : ∀ tid' ∈ rest, ∃ t ∈ db1.task_statuses, t.task_id = tid' := by
      intro tid' htid'
      obtain ⟨t', ht', htid2⟩ := h tid' (List.mem_cons_of_mem _ htid')
      have hm : tid' ∈ db1.task_statuses.map (fun t => t.task_id) := by
        rw [hmap]
        exact List.mem_map.mpr ⟨t', ht', htid2⟩
      obtain ⟨t'', ht'', htid3⟩ := List.mem_map.mp hm
      exact ⟨t'', ht'', htid3⟩
    obtain ⟨db', hloop, hw', hr'⟩ := ih db1 hrest
    refine ⟨db', ?_, hw'.trans hw, hr'.trans hr⟩
    simp [delete_worker_cancel_loop, hcancel, hloop]

/-- C4: worker-death recovery.  For every store state `_delete_worker`
completes; afterwards no `Worker` document is named `W` and no
`ReservedResource` row names `W`, and the calls made to `cancel` are
exactly one `(task_id, revoke_task := false)` call for each `TaskStatus`
that had `worker_name = W` and a state in `CALL_INCOMPLETE_STATES`. -/
theorem c4_delete_worker_recovery (db : Db) (name : String) :
    ∃ db' calls, _delete_worker db name = Except.ok (db', calls)
      ∧ (∀ w ∈ db'.workers, ¬ w.name = name)
      ∧ (∀ r ∈ db'.reservations, ¬ r.worker_name = name)
      ∧ calls = ((db.task_statuses.filter (fun t =>
            t.worker_name == some name
            && CALL_INCOMPLETE_STATES.contains t.state)).map
              (fun t => t.task_id)).map (fun tid => (tid, false)) := by
  have hids : ∀ tid ∈ ((db.task_statuses.filter (fun t =>
      t.worker_name == some name
      && CALL_INCOMPLETE_STATES.contains t.state)).map (fun t => t.task_id)),
      ∃ t ∈ db.task_statuses, t.task_id = tid := by
    intro tid htid
    obtain ⟨t, htmem, htid2⟩ := List.mem_map.mp htid
    exact ⟨t, (List.mem_filter.mp htmem).1, htid2⟩
  obtain ⟨db', hloop, hw, hr⟩ :=
    delete_worker_cancel_loop_ok _
      { workers := db.workers.filter (fun w => !(w.name == name)),
        reservations := db.reservations.filter (fun r => !(r.worker_name == name)),
        task_statuses := db.task_statuses,
        resource_manager_locks :=
          if startswith name RESOURCE_MANAGER_WORKER_NAME then
            db.resource_manager_locks.filter (fun n => !(n == name))
          else db.resource_manager_locks,
        celery_beat_locks :=
          if startswith name SCHEDULER_WORKER_NAME then
            db.celery_beat_locks.filter (fun n => !(n == name))
          else db.celery_beat_locks }
      hids
  refine ⟨db', _, hloop, ?_, ?_, rfl⟩
  · intro w hwmem
    rw [hw] at hwmem
    have hp := (List.mem_filter.mp hwmem).2
    simpa using hp
  · intro r hrmem
    rw [hr] at hrmem
    have hp := (List.mem_filter.mp hrmem).2
    simpa using hp

/-- C4 witness: killing `w1` with one reservation, one incomplete task and
one finished task on it. -/
theorem c4_delete_worker_recovery_witness :
    ∃ db' calls,
      _delete_worker
          { workers := [{ name := "w1" }, { name := "w2" }],
            reservations :=
              [{ task_id := "t1", worker_name := "w1", resource_id := "repo:a" }],
            task_statuses :=
              [{ task_id := "t1", state := TaskState.running, worker_name := some "w1" },
               { task_id := "t2", state := TaskState.finished, worker_name := some "w1" }] }
          "w1"
        = Except.ok (db', calls)
      ∧ (∀ w ∈ db'.workers, ¬ w.name = "w1")
      ∧ (∀ r ∈ db'.reservations, ¬ r.worker_name = "w1")
      ∧ calls =
          ((([{ task_id := "t1", state := TaskState.running, worker_name := some "w1" },
              { task_id := "t2", state := TaskState.finished, worker_name := some "w1" }]
                : List TaskStatus).filter (fun t =>
              t.worker_name == some "w1"
              && CALL_INCOMPLETE_STATES.contains t.state)).map
                (fun t => t.task_id)).map (fun tid => (tid, false)) :=
  c4_delete_worker_recovery
    { workers := [{ name := "w1" }, { name := "w2" }],
      reservations :=
        [{ task_id := "t1", worker_name := "w1", resource_id := "repo:a" }],
      task_statuses :=
        [{ task_id := "t1", state := TaskState.running, worker_name := some "w1" },
         { task_id := "t2", state := TaskState.finished, worker_name := some "w1" }] }
    "w1"

/-- C5: cancel before start.  If a `TaskStatus` for the picked-up id exists
and reads `canceled`, `Task.__call__` returns at once: the store is
untouched (no `running` write) and the job body does not run. -/
theorem c5_cancel_before_start (db : Db) (request_id : String)
    (called_directly : Bool) (hostname now : String) (ts : TaskStatus)
    (h1 : db.task_statuses.find? (fun t => t.task_id == request_id) = some ts)
    (h2 : ts.state = TaskState.canceled) :
    Task_call db request_id called_directly hostname now = (db, false) := by
  simp [Task_call, h1, h2]

/-- C5 witness: a canceled task is not run at pickup. -/
theorem c5_cancel_before_start_witness :
    Task_call
        { task_statuses := [{ task_id := "t1", state := TaskState.canceled }] }
        "t1" false "w1" "now"
      = ({ task_statuses := [{ task_id := "t1", state := TaskState.canceled }] },
         false) :=
  c5_cancel_before_start _ "t1" false "w1" "now"
    { task_id := "t1", state := TaskState.canceled } rfl rfl

/-- C8: cancel of an unknown task.  When no `TaskStatus` document carries
the id, `cancel` raises `MissingResource` (the `Except.error`), reached
before any store update or broker/agent call is built: no write happens and
no revoke is issued. -/
theorem c8_cancel_missing_task (db : Db) (task_id : String) (revoke_task : Bool)
    (h : db.task_statuses.find? (fun t => t.task_id == task_id) = none) :
    cancel db task_id revoke_task = Except.error () := by
  simp [cancel, h]

/-- C8 witness: cancelling `no-such-id` on a store without that task. -/
theorem c8_cancel_missing_task_witness :
    cancel { task_statuses := [{ task_id := "t1", state := TaskState.waiting }] }
        "no-such-id" true
      = Except.error () :=
  c8_cancel_missing_task _ "no-such-id" true rfl

/-- C9: reserved names never get user work.  Whatever the registry and
ledger hold, a worker returned by `_get_unreserved_worker` (the only source
of workers for the unreserved-eligible path of both placement rules) never
has a name starting with the scheduler name, the resource-manager queue
name, or the resource-manager worker name: `_is_worker` filters such names
out before the set difference is taken. -/
theorem c9_unreserved_worker_excludes_internal (db : Db) (w : Worker)
    (h : _get_unreserved_worker db = Except.ok w) :
    startswith w.name SCHEDULER_WORKER_NAME = false
    ∧ startswith w.name RESOURCE_MANAGER_QUEUE = false
    ∧ startswith w.name RESOURCE_MANAGER_WORKER_NAME = false := by
  unfold _get_unreserved_worker at h
  split at h
  next heq => exact Except.noConfusion h
  next n rest heq =>
    split at h
    next w' hfind =>
      injection h with h'
      subst h'
      have hn : n ∈ ((db.workers.map (fun w => w.name)).filter _is_worker) := by
        have hmem : n ∈ ((db.workers.map (fun w => w.name)).filter _is_worker).filter
            (fun m => !((db.reservations.map (fun r => r.worker_name)).contains m)) := by
          rw [heq]
          exact List.mem_cons_self _ _
        exact (List.mem_filter.mp hmem).1
      have hiw : _is_worker n = true := (List.mem_filter.mp hn).2
      have hwn : w'.name = n := by
        simpa using List.find?_some hfind
      rw [hwn]
      unfold _is_worker at hiw
      split at hiw
      next hcond => exact Bool.noConfusion hiw
      next hcond =>
        have hor := Bool.or_eq_false_iff.mp (Bool.of_not_eq_true hcond)
        refine ⟨hor.1, hor.2, ?_⟩
        have h3 : RESOURCE_MANAGER_WORKER_NAME = RESOURCE_MANAGER_QUEUE := rfl
        rw [h3]
        exact hor.2
    next hfind => exact Except.noConfusion h

/-- C9 witness: with a scheduler, a resource manager and one ordinary idle
worker registered, the ordinary worker is picked and carries no reserved
name. -/
theorem c9_unreserved_worker_excludes_internal_witness :
    startswith "worker1@h" SCHEDULER_WORKER_NAME = false
    ∧ startswith "worker1@h" RESOURCE_MANAGER_QUEUE = false
    ∧ startswith "worker1@h" RESOURCE_MANAGER_WORKER_NAME = false :=
  c9_unreserved_worker_excludes_internal
    { workers := [{ name := "scheduler@h" }, { name := "resource_manager@h" },
                  { name := "worker1@h" }] }
    { name := "worker1@h" } rfl

/-- C3: multi-resource placement rule, for `S = reservation_workers db
resources` (the set of worker names holding reservations on any requested
resource).  One iteration of `get_worker_for_reservation_list` returns the
unique member of `S` when `S` is a singleton (given that a `Worker`
document of that name exists), attempts `_get_unreserved_worker` when `S`
is empty (sleeping on `NoWorkers`), and with two or more holders returns no
worker, falling through to sleep and retry. -/
theorem c3_multi_resource_placement (db : Db) (resources : List String) :
    (∀ n w, reservation_workers db resources = [n] →
        db.workers.find? (fun x => x.name == n) = some w →
        get_worker_for_reservation_list_step db resources
            = ListPlacementOutcome.found w
          ∧ w.name = n)
    ∧ (reservation_workers db resources = [] →
        get_worker_for_reservation_list_step db resources
          = (match _get_unreserved_worker db with
             | Except.ok w => ListPlacementOutcome.found w
             | Except.error _ => ListPlacementOutcome.wouldSleep))
    ∧ (∀ a b rest, reservation_workers db resources = a :: b :: rest →
        get_worker_for_reservation_list_step db resources
          = ListPlacementOutcome.wouldSleep) := by
  refine ⟨?_, ?_, ?_⟩
  · intro n w h1 h2
    constructor
    · simp only [get_worker_for_reservation_list_step, h1, h2]
    · simpa using List.find?_some h2
  · intro h1
    simp only [get_worker_for_reservation_list_step, h1]
  · intro a b rest h1
    simp only [get_worker_for_reservation_list_step, h1]

/-- C3 witness: with `w1` holding `repo:a`, a request on `[repo:a, repo:b]`
is placed on `w1`; with `w1` holding `repo:a` and `w2` holding `repo:b`,
the same request finds two holders and waits. -/
theorem c3_multi_resource_placement_witness :
    (get_worker_for_reservation_list_step
          { workers := [{ name := "w1" }, { name := "w2" }],
            reservations :=
              [{ task_id := "t0", worker_name := "w1", resource_id := "repo:a" }] }
          ["repo:a", "repo:b"]
        = ListPlacementOutcome.found { name := "w1" }
      ∧ ({ name := "w1" } : Worker).name = "w1")
    ∧ get_worker_for_reservation_list_step
          { workers := [{ name := "w1" }, { name := "w2" }],
            reservations :=
              [{ task_id := "t0", worker_name := "w1", resource_id := "repo:a" },
               { task_id := "t2", worker_name := "w2", resource_id := "repo:b" }] }
          ["repo:a", "repo:b"]
        = ListPlacementOutcome.wouldSleep :=
  ⟨(c3_multi_resource_placement _ _).1 "w1" { name := "w1" } rfl rfl,
   (c3_multi_resource_placement _ _).2.2 "w1" "w2" [] rfl⟩

/-- C6: release postcondition.  For a task id carried by exactly one
`TaskStatus` document (the unique-index invariant of the store), and with
the release job running as a worker task (`called_directly = false`),
`_release_resource` completes without raising; afterwards no
`ReservedResource` row with that `task_id` remains, and if the task's state
was still `running` when release ran, its document has been failed through
the `on_failure` path: state `error`, the synthetic coded exception
`PLP0049` recorded, and the `MyEinfo` traceback of `None`; a task not in
`running` is left untouched. -/
theorem c6_release_postcondition (db : Db) (task_id finish_time : String)
    (ts : TaskStatus)
    (h1 : db.task_statuses.filter (fun t => t.task_id == task_id) = [ts]) :
    (_release_resource db task_id finish_time false).2 = false
    ∧ (∀ r ∈ (_release_resource db task_id finish_time false).1.reservations,
        ¬ r.task_id = task_id)
    ∧ (ts.state = TaskState.running →
        (_release_resource db task_id finish_time false).1.task_statuses.filter
            (fun t => t.task_id == task_id)
          = [{ ts with
               state := TaskState.error,
               finish_time := some finish_time,
               traceback := none,
               error := some (Exc.pulpCoded "PLP0049") }])
    ∧ (¬ ts.state = TaskState.running →
        (_release_resource db task_id finish_time false).1.task_statuses
          = db.task_statuses) := by
  have hfilt : db.task_statuses.filter
      (fun t => t.task_id == task_id && t.state == TaskState.running)
      = [ts].filter (fun t => t.state == TaskState.running) := by
    rw [filter_and_eq (fun t => t.task_id == task_id)
      (fun t => t.state == TaskState.running) db.task_statuses, h1]
  by_cases hrun : ts.state = TaskState.running
  · have hrl : [ts].filter (fun t => t.state == TaskState.running) = [ts] := by
      simp [List.filter_cons, hrun]
    have hfind := find?_of_filter_singleton (fun t => t.task_id == task_id)
      db.task_statuses ts h1
    have hstep : release_loop task_id finish_time false db.task_statuses
        (db.task_statuses.filter
          (fun t => t.task_id == task_id && t.state == TaskState.running))
        = (updateFirst (fun t => t.task_id == task_id)
            (fun t => { t with
              state := TaskState.error,
              finish_time := some finish_time,
              traceback := none,
              error := some (Exc.pulpCoded "PLP0049") })
            db.task_statuses, false) := by
      rw [hfilt, hrl]
      simp [release_loop, Task_on_failure, _handle_on_failure_cleanup, hfind,
        exc_to_stored]
    refine ⟨?_, ?_, ?_, ?_⟩
    · unfold _release_resource
      rw [hstep]
    · unfold _release_resource
      rw [hstep]
      intro r hmem
      have hmem' : r ∈ db.reservations.filter (fun r => !(r.task_id == task_id)) :=
        hmem
      simpa using (List.mem_filter.mp hmem').2
    · intro _
      unfold _release_resource
      rw [hstep]
      show (updateFirst (fun t => t.task_id == task_id)
          (fun t => { t with
            state := TaskState.error,
            finish_time := some finish_time,
            traceback := none,
            error := some (Exc.pulpCoded "PLP0049") })
          db.task_statuses).filter (fun t => t.task_id == task_id)
        = [{ ts with
             state := TaskState.error,
             finish_time := some finish_time,
             traceback := none,
             error := some (Exc.pulpCoded "PLP0049") }]
      exact filter_updateFirst_singleton (fun t => t.task_id == task_id)
        (fun t => { t with
          state := TaskState.error,
          finish_time := some finish_time,
          traceback := none,
          error := some (Exc.pulpCoded "PLP0049") })
        (fun a => rfl) db.task_statuses ts h1
    · intro h
      exact absurd hrun h
  · have hrl : [ts].filter (fun t => t.state == TaskState.running) = [] := by
      simp [List.filter_cons]
      intro hcontra
      exact absurd hcontra hrun
    have hstep : release_loop task_id finish_time false db.task_statuses
        (db.task_statuses.filter
          (fun t => t.task_id == task_id && t.state == TaskState.running))
        = (db.task_statuses, false) := by
      rw [hfilt, hrl]
      rfl
    refine ⟨?_, ?_, ?_, ?_⟩
    · unfold _release_resource
      rw [hstep]
    · unfold _release_resource
      rw [hstep]
      intro r hmem
      have hmem' : r ∈ db.reservations.filter (fun r => !(r.task_id == task_id)) :=
        hmem
      simpa using (List.mem_filter.mp hmem').2
    · intro h
      exact absurd h hrun
    · intro _
      unfold _release_resource
      rw [hstep]

/-- C6 witness: releasing `t1`, still `running`, with one ledger row. -/
theorem c6_release_postcondition_witness :
    (_release_resource
        { reservations := [{ task_id := "t1", worker_name := "w1", resource_id := "r1" }],
          task_statuses := [{ task_id := "t1", state := TaskState.running }] }
        "t1" "ft" false).2 = false
    ∧ (∀ r ∈ (_release_resource
          { reservations := [{ task_id := "t1", worker_name := "w1", resource_id := "r1" }],
            task_statuses := [{ task_id := "t1", state := TaskState.running }] }
          "t1" "ft" false).1.reservations,
        ¬ r.task_id = "t1")
    ∧ (({ task_id := "t1", state := TaskState.running } : TaskStatus).state
          = TaskState.running →
        (_release_resource
            { reservations := [{ task_id := "t1", worker_name := "w1", resource_id := "r1" }],
              task_statuses := [{ task_id := "t1", state := TaskState.running }] }
            "t1" "ft" false).1.task_statuses.filter (fun t => t.task_id == "t1")
          = [{ ({ task_id := "t1", state := TaskState.running } : TaskStatus) with
               state := TaskState.error, finish_time := some "ft",
               traceback := none, error := some (Exc.pulpCoded "PLP0049") }])
    ∧ (¬ ({ task_id := "t1", state := TaskState.running } : TaskStatus).state
          = TaskState.running →
        (_release_resource
            { reservations := [{ task_id := "t1", worker_name := "w1", resource_id := "r1" }],
              task_statuses := [{ task_id := "t1", state := TaskState.running }] }
            "t1" "ft" false).1.task_statuses
          = [{ task_id := "t1", state := TaskState.running }]) :=
  c6_release_postcondition
    { reservations := [{ task_id := "t1", worker_name := "w1", resource_id := "r1" }],
      task_statuses := [{ task_id := "t1", state := TaskState.running }] }
    "t1" "ft" { task_id := "t1", state := TaskState.running } rfl

/-- C7: the `_release_resource` enqueue sits in a `finally`.  Whenever a
single- or multi-resource dispatch places a job, its effect list consists
of the inner-job enqueue attempt (present exactly when that `apply_async`
did not raise) followed by the `_release_resource` enqueue routed to the
same chosen worker's dedicated queue — so the release is enqueued after the
inner attempt even when the inner enqueue raises, in which case the
exception then propagates (`raised = !inner_ok`). -/
theorem c7_release_enqueued_in_finally (db : Db) (name task_id resource_id : String)
    (resource_id_list : List String) (inner_ok : Bool) :
    (∀ db' effects raised,
        _queue_reserved_task_step db name task_id resource_id inner_ok
            = QueueOutcome.placed db' effects raised →
        ∃ worker_name,
          effects = (if inner_ok then
              [Effect.enqueue name worker_name DEDICATED_QUEUE_EXCHANGE task_id]
            else []) ++
            [Effect.enqueue _release_resource_task_name worker_name
              DEDICATED_QUEUE_EXCHANGE task_id]
          ∧ raised = !inner_ok)
    ∧ (∀ db' effects raised,
        _queue_reserved_task_list_step db name task_id resource_id_list inner_ok
            = QueueOutcome.placed db' effects raised →
        ∃ worker_name,
          effects = (if inner_ok then
              [Effect.enqueue name worker_name DEDICATED_QUEUE_EXCHANGE task_id]
            else []) ++
            [Effect.enqueue _release_resource_task_name worker_name
              DEDICATED_QUEUE_EXCHANGE task_id]
          ∧ raised = !inner_ok) := by
  constructor
  · intro db' effects raised h
    unfold _queue_reserved_task_step at h
    split at h
    next w heq =>
      unfold queue_dispatch_single at h
      injection h with hdb heff hraise
      exact ⟨w.name, heff.symm, hraise.symm⟩
    next heq => exact QueueOutcome.noConfusion h
    next heq =>
      split at h
      next w heq2 =>
        unfold queue_dispatch_single at h
        injection h with hdb heff hraise
        exact ⟨w.name, heff.symm, hraise.symm⟩
      next heq2 => exact QueueOutcome.noConfusion h
  · intro db' effects raised h
    unfold _queue_reserved_task_list_step at h
    split at h
    next w heq =>
      unfold queue_dispatch_list at h
      injection h with hdb heff hraise
      exact ⟨w.name, heff.symm, hraise.symm⟩
    next heq => exact QueueOutcome.noConfusion h
    next heq => exact QueueOutcome.noConfusion h

/-- C7 witness: with one idle worker and a failing inner enqueue
(`inner_ok = false`), both dispatchers still enqueue the release on the
chosen worker's queue and then re-raise. -/
theorem c7_release_enqueued_in_finally_witness :
    (∃ worker_name,
        [Effect.enqueue _release_resource_task_name "w1" DEDICATED_QUEUE_EXCHANGE "t1"]
          = (if false then
               [Effect.enqueue "job" worker_name DEDICATED_QUEUE_EXCHANGE "t1"]
             else []) ++
            [Effect.enqueue _release_resource_task_name worker_name
              DEDICATED_QUEUE_EXCHANGE "t1"]
        ∧ true = !false)
    ∧ (∃ worker_name,
        [Effect.enqueue _release_resource_task_name "w1" DEDICATED_QUEUE_EXCHANGE "t1"]
          = (if false then
               [Effect.enqueue "job" worker_name DEDICATED_QUEUE_EXCHANGE "t1"]
             else []) ++
            [Effect.enqueue _release_resource_task_name worker_name
              DEDICATED_QUEUE_EXCHANGE "t1"]
        ∧ true = !false) :=
  ⟨(c7_release_enqueued_in_finally { workers := [{ name := "w1" }] }
        "job" "t1" "r1" ["r1", "r2"] false).1
      { workers := [{ name := "w1" }],
        reservations := [{ task_id := "t1", worker_name := "w1", resource_id := "r1" }] }
      [Effect.enqueue _release_resource_task_name "w1" DEDICATED_QUEUE_EXCHANGE "t1"]
      true rfl,
   (c7_release_enqueued_in_finally { workers := [{ name := "w1" }] }
        "job" "t1" "r1" ["r1", "r2"] false).2
      { workers := [{ name := "w1" }],
        reservations := [{ task_id := "t1", worker_name := "w1", resource_id := "r1" },
                         { task_id := "t1", worker_name := "w1", resource_id := "r2" }] }
      [Effect.enqueue _release_resource_task_name "w1" DEDICATED_QUEUE_EXCHANGE "t1"]
      true rfl⟩

/-- C10 (code bug): the ObjectId round-trip fails.  The encode step of
`_type_transform` turns an `ObjectId` into the `bson_dumps` string; the
decode step returns that string unchanged, because the only decoding branch
matches a dict carrying the key `'$oid'`, which the encoder never produces
(and which `bson_loads` could not parse anyway).  Encode-then-decode of an
ObjectId therefore yields a `str`, not the original ObjectId — contrary to
the function's own docstring ("The same str is converted back to an
ObjectId while de-serializing"). -/
theorem c10_type_transform_no_roundtrip :
    (_type_transform (PValue.oid "507f1f77bcf86cd799439011")).bind _type_transform
        = some (PValue.pstr (bson_dumps_oid "507f1f77bcf86cd799439011"))
      ∧ PValue.pstr (bson_dumps_oid "507f1f77bcf86cd799439011")
        ≠ PValue.oid "507f1f77bcf86cd799439011" := by
  constructor
  · simp [_type_transform]
  · exact fun h => PValue.noConfusion h

end Pulp
